import Mathlib

/-
Verification of the `http` package (DrBuchkov/http, file `http.go`): a
high-level HTTP helper exposing a generic `Request` dispatcher, per-method
convenience wrappers, recipe constructors, and a sequential `Pipe` runner.

The Go code is shallowly embedded below.  External collaborators are
modelled at their interface boundary, exactly as the package consumes them:

* `url.Values` (a Go `map[string][]string`) becomes an association list
  from keys to lists of values; Go's `nil` map is `Option.none`.
* the transport (`Client.Do`) becomes a function from a built request to
  either an error message or a `Response`;
* the JSON codec (`json.Unmarshal` into a struct pointer) is modelled at
  the field level: a response body either fails to parse or yields a list
  of field/value pairs which are merged field-wise onto the receptacle
  (fields present in the body overwrite, absent fields are kept);
* a receptacle (the `out *T` pointer) is a fixed list of named fields.

Mutation through the `out *T` pointer is made explicit by returning the
new receptacle value; a Go runtime panic (nil-pointer dereference) is an
explicit outcome of the model, as is anything printed to stdout.
-/

namespace Http

/-- Go `url.Values`: a map from string keys to lists of string values,
modelled as an association list (one entry per key). -/
abbrev Values : Type := List (String × List String)

/-- Go `url.Values.Add(k, v)`: append `v` to the list of values held at key
`k`, creating the entry when the key is not present. -/
def Values.add (q : Values) (k v : String) : Values :=
  match q with
  | [] => [(k, [v])]
  | e :: rest => if e.1 = k then (e.1, e.2 ++ [v]) :: rest else e :: Values.add rest k v

/-- The inner loop of the GET/DELETE branch of `Request`:
`for _, value := range values { q.Add(k, value) }`. -/
def addAll (q : Values) (k : String) : List String → Values
  | [] => q
  | v :: rest => addAll (Values.add q k v) k rest

/-- The outer loop of the GET/DELETE branch of `Request`:
`for k, values := range in { ... }` adding every value of every key of
`in` to the query `q`. -/
def addValues (q : Values) : Values → Values
  | [] => q
  | e :: rest => addValues (addAll q e.1 e.2) rest

/-- Number of occurrences of the key/value pair `(k, v)` in a multi-map:
a key may repeat a value, so pairs are counted with multiplicity. -/
def countPair : Values → String → String → Nat
  | [], _, _ => 0
  | e :: rest, k, v => (if e.1 = k then e.2.count v else 0) + countPair rest k v

/-- Insert an entry into a list of entries kept sorted by key
(model of the key-sorting performed by `url.Values.Encode`). -/
def insertKey (p : String × List String) : Values → Values
  | [] => [p]
  | q :: rest =>
    if compare p.1 q.1 == Ordering.gt then q :: insertKey p rest else p :: q :: rest

/-- Sort the entries of a multi-map by key (insertion sort). -/
def sortKeys : Values → Values
  | [] => []
  | p :: rest => insertKey p (sortKeys rest)

/-- Go `url.Values.Encode`: serialize the multi-map in `k=v&k=v` form with
keys sorted; percent-escaping of keys and values is below the granularity
of this model. -/
def Values.encode (vs : Values) : String :=
  String.intercalate "&"
    ((sortKeys vs).foldr (fun kv acc => kv.2.map (fun v => kv.1 ++ "=" ++ v) ++ acc) [])

/-- A parsed URL as `http.NewRequest` produces it: an opaque base part
(scheme, host, path) and the query parameters parsed from its query
string (`req.URL.Query()`). -/
structure URL where
  base  : String
  query : Values
deriving DecidableEq

/-- A built `*http.Request` at the granularity the package manipulates it:
method, URL base, URL query parameters, headers, body bytes, and the
deadline (in seconds) of the context the request is bound to. -/
structure HttpRequest where
  method         : String
  urlBase        : String
  query          : Values
  headers        : List (String × String)
  body           : String
  timeoutSeconds : Int
deriving DecidableEq

/-- A response body, at the granularity of the JSON codec: either bytes
that are not a valid JSON object, or a parsed object as field/value
pairs. -/
inductive Body where
  | malformed (raw : String)
  | jsonObj (fields : List (String × String))
deriving DecidableEq

/-- A transport-level response: status code, status line and the result of
reading the body (`io.ReadAll` may fail). -/
structure Response where
  statusCode : Nat
  status     : String
  bodyRead   : Except String Body

/-- The transport (`Client.Do`): executes a built request, returning a
response or a transport error message. -/
abbrev Transport : Type := HttpRequest → Except String Response

/-- The errors `Request` returns: transport failures (`Client.Do` or
`io.ReadAll`), the status error built by `fmt.Errorf(res.Status)`, and
JSON decode failures from `json.Unmarshal`. -/
inductive Err where
  | transport (msg : String)
  | status (line : String)
  | decode (msg : String)
deriving DecidableEq

/-- The package-global configuration read by every call: `TimeOut`
(seconds, default 60). The transport (`Client`) is passed alongside. -/
structure Config where
  timeOut : Int
deriving DecidableEq

/-- Outcome of the request-building phase of `Request`. -/
inductive BuildResult where
  /-- Case where `http.NewRequest` returned a request. -/
  | built (req : HttpRequest)
  /-- No case of the method switch matched, so `req` is still nil. -/
  | nilReq
  /-- The POST/PUT/PATCH branch with `in == nil` passes a typed-nil
  `*strings.Reader` as the body; `http.NewRequest` sees a non-nil
  `io.Reader` interface and panics calling `Len()` on the nil pointer. -/
  | panicNilBody
deriving DecidableEq

/-- The `switch method` encode/build phase of `Request` (`http.go`):
GET/DELETE put `in` into the URL query string (preserving existing query
parameters); POST/PUT/PATCH put the URL-encoded form of `in` into the
body together with Content-Type and Content-Length headers. -/
def buildRequest (method : String) (uri : URL) (inp : Option Values) : BuildResult :=
  if method = "GET" ∨ method = "DELETE" then
    match inp with
    | none => .built ⟨method, uri.base, uri.query, [], "", 0⟩
    | some vs => .built ⟨method, uri.base, addValues uri.query vs, [], "", 0⟩
  else if method = "POST" ∨ method = "PUT" ∨ method = "PATCH" then
    match inp with
    | none => .panicNilBody
    | some vs =>
      .built ⟨method, uri.base, uri.query,
              [("Content-Type", "application/x-www-form-urlencoded"),
               ("Content-Length", toString (Values.encode vs).length)],
              Values.encode vs, 0⟩
  else .nilReq

/-- Model of `req = req.WithContext(ctx)` where `ctx` carries the deadline derived
from the configured timeout. -/
def withTimeout (t : Int) (r : HttpRequest) : HttpRequest :=
  { r with timeoutSeconds := t }

/-- The receptacle (`out *T`): a value with a fixed set of named fields. -/
abbrev Rcpt : Type := List (String × String)

/-- Model of `json.Unmarshal(buf, out)` on a struct pointer, field-wise: every
field of `out` whose name appears in the JSON object takes the value from
the object; fields absent from the object keep their previous value. -/
def mergeFields (fields : List (String × String)) (out : Rcpt) : Rcpt :=
  out.map (fun kv => (kv.1, ((fields.lookup kv.1).getD kv.2)))

/-- The execute/validate/decode phase of `Request`, applied to the result
of `Client.Do`: status codes outside [200, 300) become a status error
(before any body read), then a body-read failure is returned, then the
body is JSON-decoded and merged into `out`.  Returns the final value of
`*out` together with the returned error, if any. -/
def finishRequest (r : Except String Response) (out : Rcpt) : Rcpt × Option Err :=
  match r with
  | .error msg => (out, some (.transport msg))
  | .ok res =>
    if 200 ≤ res.statusCode ∧ res.statusCode < 300 then
      match res.bodyRead with
      | .error msg => (out, some (.transport msg))
      | .ok (.malformed raw) => (out, some (.decode raw))
      | .ok (.jsonObj fields) => (mergeFields fields out, none)
    else (out, some (.status res.status))

/-- Full observable outcome of one `Request` call: the final value of the
receptacle `*out`, the returned error, everything printed to stdout, and
whether the call ended in a runtime panic instead of returning. -/
structure RequestResult where
  out      : Rcpt
  err      : Option Err
  printed  : List String
  panicked : Bool
deriving DecidableEq

/-- The function `Request(method, uri, in, out)` from `http.go`, with the package
globals (`TimeOut`, `Client`) passed explicitly as `cfg` and `client`.
When the method switch leaves `req` nil the code prints `Hello World` and
then panics dereferencing `req` in `req.WithContext`; when building
panics (typed-nil body reader) nothing is printed.  Otherwise the built
request is bound to the deadline read from `cfg` at call time, executed,
status-validated, and the JSON body merged into `out`. -/
def Request (cfg : Config) (client : Transport) (method : String) (uri : URL)
    (inp : Option Values) (out : Rcpt) : RequestResult :=
  match buildRequest method uri inp with
  | .panicNilBody => ⟨out, none, [], true⟩
  | .nilReq => ⟨out, none, ["Hello World"], true⟩
  | .built req =>
    let r := finishRequest (client (withTimeout cfg.timeOut req)) out
    ⟨r.1, r.2, [], false⟩

/-- Wrapper `Get`: `Request("GET", url, in, out)`. -/
def Get (cfg : Config) (client : Transport) (url : URL) (inp : Option Values)
    (out : Rcpt) : RequestResult :=
  Request cfg client "GET" url inp out

/-- Wrapper `Post`: `Request("POST", url, in, out)`. -/
def Post (cfg : Config) (client : Transport) (url : URL) (inp : Option Values)
    (out : Rcpt) : RequestResult :=
  Request cfg client "POST" url inp out

/-- Wrapper `Put`: `Request("PUT", url, in, out)`. -/
def Put (cfg : Config) (client : Transport) (url : URL) (inp : Option Values)
    (out : Rcpt) : RequestResult :=
  Request cfg client "PUT" url inp out

/-- Wrapper `Patch`: `Request("PATCH", url, in, out)`. -/
def Patch (cfg : Config) (client : Transport) (url : URL) (inp : Option Values)
    (out : Rcpt) : RequestResult :=
  Request cfg client "PATCH" url inp out

/-- Wrapper `Delete`: `Request("DELETE", url, nil, out)` — note the input
is always nil. -/
def Delete (cfg : Config) (client : Transport) (url : URL) (out : Rcpt) : RequestResult :=
  Request cfg client "DELETE" url none out

/-- The type `ReqRecipe[T] = func(out *T) error`: a bottled request.  The pointer
mutation of `*out` is made explicit: the recipe maps the current value of
the receptacle to its new value plus the returned error. -/
abbrev ReqRecipe (T : Type) : Type := T → T × Option Err

/-- Constructor `GetRecipe(url, in)`: a recipe that performs `Get(url, in, out)`.
The ambient package globals at invocation time are `cfg` and `client`. -/
def GetRecipe (cfg : Config) (client : Transport) (url : URL)
    (inp : Option Values) : ReqRecipe Rcpt :=
  fun out => ((Get cfg client url inp out).out, (Get cfg client url inp out).err)

/-- Constructor `PostRecipe(url, in)`: a recipe that performs `Post(url, in, out)`. -/
def PostRecipe (cfg : Config) (client : Transport) (url : URL)
    (inp : Option Values) : ReqRecipe Rcpt :=
  fun out => ((Post cfg client url inp out).out, (Post cfg client url inp out).err)

/-- Constructor `PutRecipe(url, in)`: a recipe that performs `Put(url, in, out)`. -/
def PutRecipe (cfg : Config) (client : Transport) (url : URL)
    (inp : Option Values) : ReqRecipe Rcpt :=
  fun out => ((Put cfg client url inp out).out, (Put cfg client url inp out).err)

/-- Constructor `PatchRecipe(url, in)`: a recipe that performs `Patch(url, in, out)`. -/
def PatchRecipe (cfg : Config) (client : Transport) (url : URL)
    (inp : Option Values) : ReqRecipe Rcpt :=
  fun out => ((Patch cfg client url inp out).out, (Patch cfg client url inp out).err)

/-- Constructor `DeleteRecipe(url)`: a recipe that performs `Delete(url, out)` — no
input parameter is accepted. -/
def DeleteRecipe (cfg : Config) (client : Transport) (url : URL) : ReqRecipe Rcpt :=
  fun out => ((Delete cfg client url out).out, (Delete cfg client url out).err)

/-- The runner `Pipe(data, recipes...)`: invoke the recipes in order on the shared
receptacle, stopping at and returning the first error; the receptacle
keeps every mutation made up to that point. -/
def Pipe {T : Type} (data : T) : List (ReqRecipe T) → T × Option Err
  | [] => (data, none)
  | r :: rs =>
    match r data with
    | (d, some e) => (d, some e)
    | (d, none) => Pipe d rs

/-! ## Helper lemmas -/

/-- Every recipe in the list succeeding on every state makes `Pipe`
succeed. -/
theorem pipe_ok_of_all_ok {T : Type} (l : List (ReqRecipe T)) (s : T)
    (h : ∀ f ∈ l, ∀ t, (f t).2 = none) : (Pipe s l).2 = none := by
  induction l generalizing s with
  | nil => rfl
  | cons r rs ih =>
    have hr := h r (List.mem_cons_self r rs) s
    rcases hrs : r s with ⟨d, oe⟩
    cases oe with
    | some e => rw [hrs] at hr; simp at hr
    | none =>
      have : Pipe s (r :: rs) = Pipe d rs := by
        simp only [Pipe, hrs]
      rw [this]
      exact ih d (fun f hf t => h f (List.mem_cons_of_mem r hf) t)

/-- Adding with `Values.add` adds exactly one occurrence of the pair `(k, v)` and
keeps every other pair count unchanged. -/
theorem countPair_add (q : Values) (k v a b : String) :
    countPair (Values.add q k v) a b =
      countPair q a b + (if k = a ∧ v = b then 1 else 0) := by
  induction q with
  | nil =>
    by_cases hk : k = a <;> by_cases hv : v = b <;>
      simp [Values.add, countPair, hk, hv, List.count_cons]
  | cons e rest ih =>
    rcases e with ⟨k2, l⟩
    simp only [Values.add]
    by_cases h : k2 = k
    · rw [if_pos h]
      simp only [countPair, h]
      by_cases hk : k = a <;> by_cases hv : v = b <;>
        simp [hk, hv, List.count_append, List.count_cons] <;> omega
    · rw [if_neg h]
      simp only [countPair]
      rw [ih]
      omega

/-- The inner loop `addAll` adds every value of the list at key `k`, with
multiplicity, and keeps every other pair count unchanged. -/
theorem countPair_addAll (q : Values) (k : String) (l : List String) (a b : String) :
    countPair (addAll q k l) a b =
      countPair q a b + (if k = a then l.count b else 0) := by
  induction l generalizing q with
  | nil => simp [addAll]
  | cons v rest ih =>
    rw [addAll, ih, countPair_add]
    by_cases hk : k = a <;> by_cases hv : v = b <;>
      simp [hk, hv, List.count_cons] <;> omega

/-- Adding a whole multi-map to a query sums the pair counts: every
pre-existing pair is retained and every pair of the map is added. -/
theorem countPair_addValues (q vs : Values) (a b : String) :
    countPair (addValues q vs) a b = countPair q a b + countPair vs a b := by
  induction vs generalizing q with
  | nil => simp [addValues, countPair]
  | cons e rest ih =>
    simp only [addValues, countPair]
    rw [ih, countPair_addAll]
    omega

/-! ## Claims about the pipeline runner -/

/-- C1.  `Pipe` invokes the recipes strictly head-first on the current
shared receptacle value, threading the mutated value to the rest; a
recipe returning an error makes `Pipe` return exactly that error with no
later recipe ever invoked (the tail is irrelevant to the result); if
every recipe succeeds, `Pipe` returns success. -/
theorem pipe_fail_fast {T : Type} (s : T) (r : ReqRecipe T)
    (rs rs2 : List (ReqRecipe T)) :
    (Pipe s (r :: rs) =
      match r s with
      | (d, some e) => (d, some e)
      | (d, none) => Pipe d rs) ∧
    (∀ d e, r s = (d, some e) → Pipe s (r :: rs) = (d, some e)) ∧
    ((r s).2.isSome = true → Pipe s (r :: rs) = Pipe s (r :: rs2)) ∧
    (∀ l : List (ReqRecipe T), (∀ f ∈ l, ∀ t, (f t).2 = none) →
      (Pipe s l).2 = none) := by
  refine ⟨rfl, ?_, ?_, ?_⟩
  · intro d e h
    simp only [Pipe, h]
  · intro h
    rcases hrs : r s with ⟨d, oe⟩
    cases oe with
    | some e => simp only [Pipe, hrs]
    | none => rw [hrs] at h; simp at h
  · intro l h
    exact pipe_ok_of_all_ok l s h

/-- Witness for C1: a failing first recipe short-circuits a concrete
two-recipe pipeline, returning exactly its error and its mutation. -/
theorem pipe_fail_fast_witness :
    Pipe (0 : Nat)
      [(fun n => (n + 1, some (Err.transport "boom"))), (fun n => (n * 2, none))]
      = (1, some (Err.transport "boom")) :=
  (pipe_fail_fast 0 (fun n => (n + 1, some (Err.transport "boom")))
    [(fun n => (n * 2, none))] []).2.1 1 (Err.transport "boom") rfl

/-- C9.  Running `Pipe` on an empty recipe list returns success at once:
no recipe (hence no dispatch and no transport call) is invoked and the
shared receptacle is returned unchanged. -/
theorem pipe_empty {T : Type} (s : T) : Pipe s [] = (s, none) := rfl

/-! ## Claims about request building -/

/-- C4.  For GET and DELETE with a present input multi-map, the built
request's query contains every key/value pair of the map with repeated
keys preserved (counts add up), and every query parameter already on the
URL is retained alongside; no pair is dropped. -/
theorem request_query_encoding (m : String) (uri : URL) (vs : Values)
    (k v : String) (hm : m = "GET" ∨ m = "DELETE") :
    ∃ req, buildRequest m uri (some vs) = .built req ∧
      countPair req.query k v = countPair uri.query k v + countPair vs k v := by
  refine ⟨⟨m, uri.base, addValues uri.query vs, [], "", 0⟩, ?_, ?_⟩
  · simp only [buildRequest, if_pos hm]
  · exact countPair_addValues uri.query vs k v

/-- Witness for C4: a GET whose URL already carries `p=1` and whose input
repeats `tags=a` twice yields a query holding both occurrences of
`tags=a` on top of the retained `p=1`. -/
theorem request_query_encoding_witness :
    ∃ req, buildRequest "GET" ⟨"http://e", [("p", ["1"])]⟩
        (some [("tags", ["a", "a"])]) = .built req ∧
      countPair req.query "tags" "a" =
        countPair [("p", ["1"])] "tags" "a" +
          countPair [("tags", ["a", "a"])] "tags" "a" :=
  request_query_encoding "GET" ⟨"http://e", [("p", ["1"])]⟩ [("tags", ["a", "a"])]
    "tags" "a" (Or.inl rfl)

/-- Looking a field up after a merge: fields present in the JSON object
overwrite, fields absent from it keep the receptacle's previous value. -/
theorem lookup_mergeFields (fields : List (String × String)) (out : Rcpt) (k : String) :
    (mergeFields fields out).lookup k =
      (out.lookup k).map (fun old => (fields.lookup k).getD old) := by
  induction out with
  | nil => rfl
  | cons e rest ih =>
    rcases e with ⟨a, b⟩
    by_cases h : k = a
    · subst h
      simp [mergeFields, List.lookup]
    · simp only [mergeFields, List.map_cons] at ih ⊢
      have hba : (k == a) = false := by simp [h]
      simp [List.lookup, hba, ih]

/-! ## Claims about the dispatcher -/

/-- C2.  Given a response, `Request` passes status validation exactly when
the status code lies in [200, 300): any code outside that range returns
the status error built from the status line with the receptacle returned
unmodified and no decode attempted, while a code inside the range never
produces a status error. -/
theorem request_status_validation (cfg : Config) (client : Transport) (m : String)
    (uri : URL) (inp : Option Values) (out : Rcpt) (req : HttpRequest) (res : Response)
    (hb : buildRequest m uri inp = .built req)
    (hc : client (withTimeout cfg.timeOut req) = .ok res) :
    (¬(200 ≤ res.statusCode ∧ res.statusCode < 300) →
      Request cfg client m uri inp out =
        ⟨out, some (.status res.status), [], false⟩) ∧
    ((200 ≤ res.statusCode ∧ res.statusCode < 300) →
      ∀ s, (Request cfg client m uri inp out).err ≠ some (.status s)) := by
  constructor
  · intro h
    simp only [Request, hb, finishRequest, hc]
    rw [if_neg h]
  · intro h s
    simp only [Request, hb, finishRequest, hc]
    rw [if_pos h]
    rcases res.bodyRead with msg | body
    · simp
    · rcases body with raw | fields <;> simp

/-- Witness for C2: a 404 response makes a concrete GET return the status
error carrying the status line, with the receptacle unchanged, even
though the response body is a well-formed JSON object. -/
theorem request_status_validation_witness :
    Request ⟨60⟩
      (fun _ => .ok ⟨404, "404 Not Found", .ok (.jsonObj [("f", "new")])⟩)
      "GET" ⟨"http://e", []⟩ none [("f", "old")] =
      ⟨[("f", "old")], some (.status "404 Not Found"), [], false⟩ :=
  (request_status_validation ⟨60⟩
    (fun _ => .ok ⟨404, "404 Not Found", .ok (.jsonObj [("f", "new")])⟩)
    "GET" ⟨"http://e", []⟩ none [("f", "old")]
    ⟨"GET", "http://e", [], [], "", 0⟩
    ⟨404, "404 Not Found", .ok (.jsonObj [("f", "new")])⟩
    (by decide) rfl).1 (by decide)

/-- C3.  For a built and executed request answered with a 2xx status and a
valid JSON object body, `Request` succeeds and merges exactly the fields
present in the JSON into the receptacle: a field of `out` named in the
JSON takes the JSON's value, and a field not named keeps the value it
held before the call. -/
theorem request_merge_decode (cfg : Config) (client : Transport) (m : String)
    (uri : URL) (inp : Option Values) (out : Rcpt) (req : HttpRequest)
    (res : Response) (fields : List (String × String)) (k old : String)
    (hb : buildRequest m uri inp = .built req)
    (hc : client (withTimeout cfg.timeOut req) = .ok res)
    (h2 : 200 ≤ res.statusCode ∧ res.statusCode < 300)
    (hj : res.bodyRead = .ok (.jsonObj fields))
    (hk : out.lookup k = some old) :
    (Request cfg client m uri inp out).err = none ∧
    (Request cfg client m uri inp out).out.lookup k =
      some ((fields.lookup k).getD old) := by
  have hreq : Request cfg client m uri inp out =
      ⟨mergeFields fields out, none, [], false⟩ := by
    simp only [Request, hb, finishRequest, hc, hj]
    rw [if_pos h2]
  rw [hreq]
  exact ⟨rfl, by simp [lookup_mergeFields, hk]⟩

/-- Witness for C3: the repository's own example — a 200 response with
body fields `word` and `name` overwrites those two fields of the
receptacle; here the untouched field keeps its value `Z`. -/
theorem request_merge_decode_witness :
    (Request ⟨60⟩
      (fun _ => .ok ⟨200, "200 OK", .ok (.jsonObj [("word", "hello"), ("name", "Rob")])⟩)
      "GET" ⟨"http://e", []⟩ none
      [("word", "X"), ("name", "Y"), ("untouched", "Z")]).err = none ∧
    (Request ⟨60⟩
      (fun _ => .ok ⟨200, "200 OK", .ok (.jsonObj [("word", "hello"), ("name", "Rob")])⟩)
      "GET" ⟨"http://e", []⟩ none
      [("word", "X"), ("name", "Y"), ("untouched", "Z")]).out.lookup "untouched" =
      some (([("word", "hello"), ("name", "Rob")].lookup "untouched").getD "Z") :=
  request_merge_decode ⟨60⟩
    (fun _ => .ok ⟨200, "200 OK", .ok (.jsonObj [("word", "hello"), ("name", "Rob")])⟩)
    "GET" ⟨"http://e", []⟩ none [("word", "X"), ("name", "Y"), ("untouched", "Z")]
    ⟨"GET", "http://e", [], [], "", 0⟩
    ⟨200, "200 OK", .ok (.jsonObj [("word", "hello"), ("name", "Rob")])⟩
    [("word", "hello"), ("name", "Rob")] "untouched" "Z"
    (by decide) rfl (by decide) rfl (by decide)

/-- C5.  For POST, PUT and PATCH with a present input multi-map the built
request's body is the URL-encoded form of the map, with a matching
Content-Length and the form Content-Type declared; with an absent input,
however, the code does not build an empty-bodied request: it passes a
typed-nil `*strings.Reader` to `http.NewRequest`, which panics, so the
call crashes without returning. -/
theorem request_body_encoding (m : String) (uri : URL) (vs : Values)
    (cfg : Config) (client : Transport) (out : Rcpt)
    (hm : m = "POST" ∨ m = "PUT" ∨ m = "PATCH") :
    buildRequest m uri (some vs) =
      .built ⟨m, uri.base, uri.query,
              [("Content-Type", "application/x-www-form-urlencoded"),
               ("Content-Length", toString (Values.encode vs).length)],
              Values.encode vs, 0⟩ ∧
    buildRequest m uri none = .panicNilBody ∧
    (Request cfg client m uri none out).panicked = true ∧
    (Request cfg client m uri none out).err = none := by
  have hne : ¬(m = "GET" ∨ m = "DELETE") := by
    rcases hm with h | h | h <;> subst h <;> decide
  have hb : buildRequest m uri none = BuildResult.panicNilBody := by
    simp only [buildRequest, if_neg hne, if_pos hm]
  refine ⟨?_, hb, ?_, ?_⟩
  · simp only [buildRequest, if_neg hne, if_pos hm]
  · simp only [Request, hb]
  · simp only [Request, hb]

/-- Witness for C5: a concrete POST with `name=Roberto` carries the
encoded form as body with both headers declared, while the same POST with
absent input panics instead of returning. -/
theorem request_body_encoding_witness :
    buildRequest "POST" ⟨"http://e", []⟩ (some [("name", ["Roberto"])]) =
      .built ⟨"POST", "http://e", [],
              [("Content-Type", "application/x-www-form-urlencoded"),
               ("Content-Length",
                toString (Values.encode [("name", ["Roberto"])]).length)],
              Values.encode [("name", ["Roberto"])], 0⟩ ∧
    buildRequest "POST" ⟨"http://e", []⟩ none = .panicNilBody ∧
    (Request ⟨60⟩ (fun _ => .error "unused") "POST" ⟨"http://e", []⟩ none
      []).panicked = true ∧
    (Request ⟨60⟩ (fun _ => .error "unused") "POST" ⟨"http://e", []⟩ none
      []).err = none :=
  request_body_encoding "POST" ⟨"http://e", []⟩ [("name", ["Roberto"])]
    ⟨60⟩ (fun _ => .error "unused") [] (Or.inl rfl)

/-- C6.  Deadline propagation: a `Request` call reads the configured
timeout at the moment of the call, binds the built request to exactly
that deadline, and hands precisely this deadline-bound request to the
transport; a different configuration value yields the corresponding
different deadline on its own call. -/
theorem request_deadline (cfg cfg2 : Config) (client : Transport) (m : String)
    (uri : URL) (inp : Option Values) (out : Rcpt) (req : HttpRequest)
    (hb : buildRequest m uri inp = .built req) :
    (withTimeout cfg.timeOut req).timeoutSeconds = cfg.timeOut ∧
    (withTimeout cfg2.timeOut req).timeoutSeconds = cfg2.timeOut ∧
    Request cfg client m uri inp out =
      ⟨(finishRequest (client (withTimeout cfg.timeOut req)) out).1,
       (finishRequest (client (withTimeout cfg.timeOut req)) out).2, [], false⟩ := by
  refine ⟨rfl, rfl, ?_⟩
  simp only [Request, hb]

/-- Witness for C6: a concrete call with the timeout configured to 5
hands the transport a request whose deadline is 5, and the same call
under a configuration of 60 would use 60. -/
theorem request_deadline_witness :
    (withTimeout (Config.mk 5).timeOut ⟨"GET", "http://e", [], [], "", 0⟩).timeoutSeconds
        = (Config.mk 5).timeOut ∧
    (withTimeout (Config.mk 60).timeOut ⟨"GET", "http://e", [], [], "", 0⟩).timeoutSeconds
        = (Config.mk 60).timeOut ∧
    Request ⟨5⟩ (fun _ => .error "down") "GET" ⟨"http://e", []⟩ none [] =
      ⟨(finishRequest ((fun (_ : HttpRequest) =>
          (Except.error "down" : Except String Response))
            (withTimeout (5 : Int) ⟨"GET", "http://e", [], [], "", 0⟩)) []).1,
       (finishRequest ((fun (_ : HttpRequest) =>
          (Except.error "down" : Except String Response))
            (withTimeout (5 : Int) ⟨"GET", "http://e", [], [], "", 0⟩)) []).2,
       [], false⟩ :=
  request_deadline ⟨5⟩ ⟨60⟩ (fun _ => .error "down") "GET" ⟨"http://e", []⟩ none []
    ⟨"GET", "http://e", [], [], "", 0⟩ (by decide)

/-- C7 counterexample: at the unsupported method `TRACE` the call does not
return any error at all (so in particular no contract error): it crashes
with a nil-pointer dereference after printing a debug line. -/
theorem contract_error_counterexample :
    (Request ⟨60⟩ (fun _ => .error "unused") "TRACE" ⟨"http://e", []⟩ none
      [("f", "v")]).err = none ∧
    (Request ⟨60⟩ (fun _ => .error "unused") "TRACE" ⟨"http://e", []⟩ none
      [("f", "v")]).panicked = true := by
  constructor <;> rfl

/-- C7 (amended).  For a method outside the supported set no request is
ever built and the transport is never invoked (the outcome is the same
for every transport); but instead of an explicit rejection the call
prints a debug line, returns no error, and crashes dereferencing the nil
request. -/
theorem invalid_method_behavior (cfg : Config) (client client2 : Transport)
    (m : String) (uri : URL) (inp : Option Values) (out : Rcpt)
    (hm : ¬(m = "GET" ∨ m = "DELETE") ∧ ¬(m = "POST" ∨ m = "PUT" ∨ m = "PATCH")) :
    buildRequest m uri inp = .nilReq ∧
    Request cfg client m uri inp out = ⟨out, none, ["Hello World"], true⟩ ∧
    Request cfg client m uri inp out = Request cfg client2 m uri inp out := by
  have hbr : buildRequest m uri inp = .nilReq := by
    simp only [buildRequest, if_neg hm.1, if_neg hm.2]
  refine ⟨hbr, ?_, ?_⟩
  · simp only [Request, hbr]
  · simp only [Request, hbr]

/-- Witness for C7 (amended): the concrete method `TRACE` builds no
request, is independent of the transport, and ends in the printing
plus panic outcome. -/
theorem invalid_method_behavior_witness :
    buildRequest "TRACE" ⟨"http://e", []⟩ none = .nilReq ∧
    Request ⟨60⟩ (fun _ => .error "a") "TRACE" ⟨"http://e", []⟩ none [] =
      ⟨[], none, ["Hello World"], true⟩ ∧
    Request ⟨60⟩ (fun _ => .error "a") "TRACE" ⟨"http://e", []⟩ none [] =
      Request ⟨60⟩ (fun _ => .error "b") "TRACE" ⟨"http://e", []⟩ none [] :=
  invalid_method_behavior ⟨60⟩ (fun _ => .error "a") (fun _ => .error "b")
    "TRACE" ⟨"http://e", []⟩ none [] (by decide)

/-- C8.  The code is not free of output side channels: dispatching with a
method the switch does not recognize reaches the leftover debug
statement and prints `Hello World` to stdout before crashing. -/
theorem request_prints_hello_world :
    (Request ⟨60⟩ (fun _ => .error "unused") "TRACE" ⟨"http://e", []⟩ none
      []).printed = ["Hello World"] := rfl

/-! ## Claims about the DELETE wrappers -/

/-- C10.  The `Delete` wrapper and `DeleteRecipe` take no input parameter
and always dispatch `Request` with absent (`nil`) input; the request
built for such a DELETE keeps the URL's query parameters unchanged, has
an empty body, and carries no headers. -/
theorem delete_no_input (cfg : Config) (client : Transport) (url : URL)
    (out : Rcpt) :
    Delete cfg client url out = Request cfg client "DELETE" url none out ∧
    DeleteRecipe cfg client url out =
      ((Request cfg client "DELETE" url none out).out,
       (Request cfg client "DELETE" url none out).err) ∧
    buildRequest "DELETE" url none =
      .built ⟨"DELETE", url.base, url.query, [], "", 0⟩ := by
  refine ⟨rfl, rfl, ?_⟩
  simp [buildRequest]

end Http
